import Mathlib

/-!
Verification of the Nexus AI pipeline engine (backend of the Nexus_AI
repository) against its natural-language specification.

Each definition below is a shallow embedding of a Python function of the
repository; the doc comment of a definition names the source file and the
function it is translated from.  Python strings are modelled as Lean
`String`s; the handful of Python `str` primitives the code uses
(`strip`, `split`, `startswith`, `in`, `replace`, `lower`) are embedded
char-wise so that all definitions are executable and kernel-reducible.
Python dicts used as records are modelled as structures; a dict key that
can be absent or `None` is modelled with `Option`.
-/

namespace NexusAI

/-! ## Python string primitives -/

/-- Python `str.strip()` on a char list: drop whitespace from both ends. -/
def stripChars (l : List Char) : List Char :=
  ((l.dropWhile Char.isWhitespace).reverse.dropWhile Char.isWhitespace).reverse

/-- Python `str.strip()`. -/
def pyStrip (s : String) : String :=
  ⟨stripChars s.data⟩

/-- Does `pre` occur at the head of `l`?  (Helper for `startswith` / `in`.) -/
def prefixMatch : List Char → List Char → Bool
  | [], _ => true
  | _ :: _, [] => false
  | a :: as, b :: bs => a = b && prefixMatch as bs

/-- Python `needle in hay` on char lists (substring containment). -/
def containsSub (needle : List Char) : List Char → Bool
  | [] => prefixMatch needle []
  | c :: cs => prefixMatch needle (c :: cs) || containsSub needle cs

/-- Python `needle in hay` (substring containment). -/
def pyIn (needle hay : String) : Bool :=
  containsSub needle.data hay.data

/-- Python `s.startswith(pre)`. -/
def pyStartsWith (s pre : String) : Bool :=
  prefixMatch pre.data s.data

/-- Python `str.lower()` (ASCII case folding, as used by the sources). -/
def pyLower (s : String) : String :=
  ⟨s.data.map Char.toLower⟩

/-- Python `s.split(sep)` for a one-character separator: split at every
occurrence of `sep`, keeping empty pieces (so `"".split(sep) == [""]`). -/
def splitCharAux (sep : Char) : List Char → List Char → List String
  | [], acc => [⟨acc.reverse⟩]
  | c :: cs, acc =>
    if c = sep then ⟨acc.reverse⟩ :: splitCharAux sep cs []
    else splitCharAux sep cs (c :: acc)

/-- Python `s.split(sep)` for a one-character separator. -/
def pySplitChar (sep : Char) (s : String) : List String :=
  splitCharAux sep s.data []

/-- Python `s.split()` with no argument: split on runs of whitespace,
discarding empty pieces. -/
def splitWsAux : List Char → List Char → List String
  | [], acc => if acc.isEmpty then [] else [⟨acc.reverse⟩]
  | c :: cs, acc =>
    if c.isWhitespace then
      if acc.isEmpty then splitWsAux cs []
      else ⟨acc.reverse⟩ :: splitWsAux cs []
    else splitWsAux cs (c :: acc)

/-- Python `s.split()` with no argument. -/
def pySplitWs (s : String) : List String :=
  splitWsAux s.data []

/-- Decimal value of a nonempty all-digit char list, `none` otherwise. -/
def digitsVal : List Char → Option Nat
  | [] => none
  | [c] => if c.isDigit then some (c.toNat - ('0').toNat) else none
  | c :: cs =>
    if c.isDigit then
      (digitsVal cs).map (fun n => (c.toNat - ('0').toNat) * 10 ^ cs.length + n)
    else none

/-- Python `int(s)`: strip whitespace, optional sign, then decimal digits;
`none` models a raised `ValueError`. -/
def pyIntOf (s : String) : Option Int :=
  match stripChars s.data with
  | '-' :: rest => (digitsVal rest).map (fun n => -(n : Int))
  | '+' :: rest => (digitsVal rest).map (fun n => (n : Int))
  | l => (digitsVal l).map (fun n => (n : Int))

/-- Python `s.replace(old, new)` on char lists, with fuel bounded by the
input length (each step consumes at least one char, so the input length
is always enough fuel; `old` is never empty at the call sites, matching
the guard). -/
def replaceChars (needle repl : List Char) : Nat → List Char → List Char
  | 0, l => l
  | _ + 1, [] => []
  | fuel + 1, c :: cs =>
    if needle ≠ [] ∧ prefixMatch needle (c :: cs) then
      repl ++ replaceChars needle repl fuel (cs.drop (needle.length - 1))
    else
      c :: replaceChars needle repl fuel cs

/-- Python `s.replace(old, new)`. -/
def pyReplace (s old new : String) : String :=
  ⟨replaceChars old.data new.data s.data.length s.data⟩

/-! ## Version history service

Embedding of `backend/app/services/version_history_service.py`. -/

/-- The `try:` body of `VersionHistoryService.increment_version` parses
`current_version.split('.')` and converts the first three parts with
`int(...)`; any failure (missing part or non-numeric part) is the
`except:` fallback. -/
def pyParseVersion (s : String) : Option (Int × Int × Int) :=
  match pySplitChar ('.') s with
  | p0 :: p1 :: p2 :: _ =>
    match pyIntOf p0, pyIntOf p1, pyIntOf p2 with
    | some a, some b, some c => some (a, b, c)
    | _, _, _ => none
  | _ => none

/-- `VersionHistoryService.increment_version`
(`version_history_service.py`, lines 17-37): bump minor and zero patch for
`validate`/`generate_code`, bump patch for `edit_logic`/`safety_check`,
leave every other action (including `edit_code`) unchanged; on any parse
failure return `"1.0.0"`. -/
def increment_version (current_version action_type : String) : String :=
  match pyParseVersion current_version with
  | none => "1.0.0"
  | some (major, minor, patch) =>
    if action_type = "validate" ∨ action_type = "generate_code" then
      s!"{major}.{minor + 1}.{(0 : Int)}"
    else if action_type = "edit_logic" ∨ action_type = "safety_check" then
      s!"{major}.{minor}.{patch + 1}"
    else
      s!"{major}.{minor}.{patch}"

/-- One ledger entry, with the fields the claims concern
(`VersionHistory.version_number` and `version_metadata["action"]`;
the diff/snapshot text fields are not modelled). -/
structure LedgerEntry where
  stage_id : Nat
  version_number : String
  action : String
deriving DecidableEq

/-- The slice of a `Stage` row that `create_version_entry` reads and
writes (`version_number`, `last_action`). -/
structure StageVersion where
  id : Nat
  version_number : String
  last_action : Option String
deriving DecidableEq

/-- `VersionHistoryService.create_version_entry`
(`version_history_service.py`, lines 56-125), restricted to its effect on
the stage version metadata and the appended ledger entry: computes
`new_version = increment_version(old, action)`, updates the stage row, and
appends an entry carrying `new_version` and the action label. -/
def create_version_entry (st : StageVersion) (history : List LedgerEntry)
    (action_type : String) : StageVersion × List LedgerEntry :=
  let new_version := increment_version st.version_number action_type
  let st' := { st with version_number := new_version, last_action := some action_type }
  (st', history ++ [{ stage_id := st.id, version_number := new_version, action := action_type }])

/-- Apply a sequence of ledger actions to a stage, threading the history. -/
def runActions (st : StageVersion) (history : List LedgerEntry) :
    List String → StageVersion × List LedgerEntry
  | [] => (st, history)
  | a :: rest =>
    let (st', h') := create_version_entry st history a
    runActions st' h' rest

/-- The S5 scenario stage: fresh stage at semver `1.0.0`. -/
def s5Stage : StageVersion :=
  { id := 7, version_number := "1.0.0", last_action := none }

/-- The S5 action sequence. -/
def s5Actions : List String :=
  ["edit_logic", "validate", "edit_logic", "generate_code"]

/-! ## Global labels service

Embedding of `backend/app/services/global_labels_service.py`. -/

/-- A label dict as produced by `_parse_label_table`
(`structured_text_generator.py`, lines 885-893): keys `name`, `data_type`,
`class`, `device`, `initial_value`, `constant`, `comment`. -/
structure Label where
  name : String
  data_type : String
  labelClass : String
  device : String
  initial_value : String
  constant : Bool
  comment : String
deriving DecidableEq

/-- The identifier used by `GlobalLabelsService.merge_global_labels`
(line 70): `label_device if label_device else label_name`. -/
def labelIdentifier (l : Label) : String :=
  if l.device ≠ "" then l.device else l.name

/-- The mutable locals of `merge_global_labels`: the accumulating `merged`
list and the two membership sets (modelled as lists; Python only tests
membership and adds elements). -/
structure MergeState where
  merged : List Label
  existing_devices : List String
  existing_names : List String

/-- The initial state of `merge_global_labels` (lines 61-63): `merged`
copies `existing_labels`; the device set holds the non-empty devices of
`existing_labels`; the name set holds their non-empty names. -/
def mergeInit (existing_labels : List Label) : MergeState :=
  { merged := existing_labels
  , existing_devices := (existing_labels.filter (fun l => l.device ≠ "")).map Label.device
  , existing_names := (existing_labels.filter (fun l => l.name ≠ "")).map Label.name }

/-- The admission test of the loop body (line 72): `identifier and
identifier not in existing_devices and label_name not in existing_names`. -/
def admits (st : MergeState) (new_label : Label) : Prop :=
  labelIdentifier new_label ≠ "" ∧
  labelIdentifier new_label ∉ st.existing_devices ∧
  new_label.name ∉ st.existing_names

instance (st : MergeState) (l : Label) : Decidable (admits st l) := by
  unfold admits; infer_instance

/-- One iteration of the `for new_label in new_labels` loop (lines 65-78):
an admitted label is appended to `merged` and its non-empty device/name
are added to the sets; otherwise the state is unchanged. -/
def mergeStep (st : MergeState) (new_label : Label) : MergeState :=
  if admits st new_label then
    { merged := st.merged ++ [new_label]
    , existing_devices :=
        if new_label.device ≠ "" then new_label.device :: st.existing_devices
        else st.existing_devices
    , existing_names :=
        if new_label.name ≠ "" then new_label.name :: st.existing_names
        else st.existing_names }
  else st

/-- `GlobalLabelsService.merge_global_labels`
(`global_labels_service.py`, lines 53-81). -/
def merge_global_labels (existing_labels new_labels : List Label) : List Label :=
  (new_labels.foldl mergeStep (mergeInit existing_labels)).merged

/-- The non-empty devices of a label list (the set comprehension of
line 62, as a list with the same membership). -/
def devicesOf (L : List Label) : List String :=
  (L.filter (fun l => l.device ≠ "")).map Label.device

/-- The non-empty names of a label list (line 63). -/
def namesOf (L : List Label) : List String :=
  (L.filter (fun l => l.name ≠ "")).map Label.name

/-- The key set of a label: its non-empty device and non-empty name.
(Spec side, §4.11: identity and collision vocabulary.) -/
def labelKeys (l : Label) : List String :=
  (if l.device ≠ "" then [l.device] else []) ++ (if l.name ≠ "" then [l.name] else [])

/-- Two labels share no non-empty device or name. -/
def keysDisjoint (a b : Label) : Prop :=
  ∀ k ∈ labelKeys a, k ∉ labelKeys b

instance (a b : Label) : Decidable (keysDisjoint a b) := by
  unfold keysDisjoint; infer_instance

/-- A list of labels that the merge keeps in full: every label has a
non-empty identity and no two labels collide on a non-empty device or
name. -/
def goodList (L : List Label) : Prop :=
  (∀ l ∈ L, labelIdentifier l ≠ "") ∧ L.Pairwise keysDisjoint

instance (L : List Label) : Decidable (goodList L) := by
  unfold goodList; infer_instance

/-- No label of `A` shares a non-empty device or name with a label of
`B`. -/
def crossDisjoint (A B : List Label) : Prop :=
  ∀ a ∈ A, ∀ b ∈ B, keysDisjoint a b

instance (A B : List Label) : Decidable (crossDisjoint A B) := by
  unfold crossDisjoint; infer_instance

/-- The state invariant of the merge loop: the membership of the two sets
is exactly the non-empty devices/names of the accumulated `merged` list. -/
def mergeInv (st : MergeState) : Prop :=
  (∀ x, x ∈ st.existing_devices ↔ x ∈ devicesOf st.merged) ∧
  (∀ x, x ∈ st.existing_names ↔ x ∈ namesOf st.merged)

/-- Stage A global of S4-style examples, used as a concrete merge input. -/
def c7LabelA : Label :=
  { name := "Start_Button", data_type := "Bit", labelClass := "VAR_GLOBAL"
  , device := "X0", initial_value := "", constant := false, comment := "" }

/-- A second, fully distinct global label. -/
def c7LabelB : Label :=
  { name := "Sensor1", data_type := "Bit", labelClass := "VAR_GLOBAL"
  , device := "X1", initial_value := "", constant := false, comment := "" }

/-! ## Stage validator result parsing

Embedding of `StageValidator._parse_validation_result`
(`backend/app/core/validation/stage_validator.py`, lines 193-307). -/

/-- A categorized issue dict (severity, title, description, recommended
logic). -/
structure CatIssue where
  severity : String
  title : String
  description : String
  recommended_logic : String
deriving DecidableEq

/-- The result dict of `_parse_validation_result`. -/
structure ValidationResult where
  valid : Bool
  status : String
  semantic_analysis : String
  logical_consistency : String
  safety_compliance : String
  issues : List String
  recommendations : List String
  categorized_issues : List CatIssue
deriving DecidableEq

/-- The loop state of `_parse_validation_result`: the result under
construction, `current_section`, and `current_issue`. -/
structure VParseState where
  res : ValidationResult
  current_section : Option String
  current_issue : Option CatIssue

/-- `if current_issue: result['categorized_issues'].append(current_issue)`
(lines 253-254 etc. and the final flush at lines 298-299). -/
def flushIssue (acc : List CatIssue) : Option CatIssue → List CatIssue
  | some ci => acc ++ [ci]
  | none => acc

/-- Starting a new categorized issue of the given severity: flush the
previous one, strip the tag from the title (lines 252-278). -/
def startIssue (st : VParseState) (sev tag line_stripped : String) : VParseState :=
  { st with
    res := { st.res with
      categorized_issues := flushIssue st.res.categorized_issues st.current_issue },
    current_issue := some { severity := sev, title := pyStrip (pyReplace line_stripped tag ""), description := "", recommended_logic := "" } }

/-- One iteration of the `for i, line in enumerate(lines)` loop of
`_parse_validation_result` (lines 216-295): first the section-detection
`if/elif` chain (each hit `continue`s), then the section-specific parsing
chain. -/
def parseValidationLine (st : VParseState) (line : String) : VParseState :=
  let line_stripped := pyStrip line
  if pyIn "VALIDATION STATUS" line then
    { st with current_section := some "status" }
  else if line = "==============================" then st
  else if pyIn "CATEGORIZED ISSUES" line then
    { st with current_section := some "categorized" }
  else if pyStartsWith line_stripped "ISSUES" ∧ ¬ pyIn "CATEGORIZED" line then
    { st with current_section := some "issues" }
  else if pyIn "RECOMMENDATIONS" line then
    { st with current_section := some "recommendations" }
  else if pyIn "ANALYSIS SUMMARY" line then
    { st with current_section := some "analysis" }
  else if st.current_section = some "issues" ∧ pyStartsWith line_stripped "-" then
    let issue := pyStrip (⟨line_stripped.data.drop 1⟩)
    if issue ≠ "" then
      { st with res := { st.res with issues := st.res.issues ++ [issue] } }
    else st
  else if st.current_section = some "recommendations" ∧ pyStartsWith line_stripped "-" then
    let recItem := pyStrip (⟨line_stripped.data.drop 1⟩)
    if recItem ≠ "" then
      { st with res := { st.res with recommendations := st.res.recommendations ++ [recItem] } }
    else st
  else if st.current_section = some "categorized" ∧ line_stripped ≠ "" then
    if pyStartsWith line_stripped "[CRITICAL]" then
      startIssue st "critical" "[CRITICAL]" line_stripped
    else if pyStartsWith line_stripped "[MODERATE]" then
      startIssue st "moderate" "[MODERATE]" line_stripped
    else if pyStartsWith line_stripped "[OPTIONAL]" then
      startIssue st "optional" "[OPTIONAL]" line_stripped
    else
      match st.current_issue with
      | some ci =>
        if pyStartsWith line_stripped "Description:" then
          let ciD := { ci with description := pyStrip (pyReplace line_stripped "Description:" "") }
          { st with current_issue := some ciD }
        else if pyStartsWith line_stripped "Recommended Logic:" then
          { st with current_issue := some ({ ci with recommended_logic := "" }) }
        else if ci.description ≠ "" then
          let ciR := { ci with recommended_logic := ci.recommended_logic ++ line_stripped ++ " " }
          { st with current_issue := some ciR }
        else st
      | none => st
  else if st.current_section = some "analysis" ∧ line_stripped ≠ "" then
    if pyStartsWith line_stripped "Semantic Analysis:" then
      { st with res := { st.res with
        semantic_analysis := pyStrip (pyReplace line_stripped "Semantic Analysis:" "") } }
    else if pyStartsWith line_stripped "Logical Consistency:" then
      { st with res := { st.res with
        logical_consistency := pyStrip (pyReplace line_stripped "Logical Consistency:" "") } }
    else if pyStartsWith line_stripped "Safety Compliance:" then
      { st with res := { st.res with
        safety_compliance := pyStrip (pyReplace line_stripped "Safety Compliance:" "") } }
    else st
  else st

/-- `StageValidator._parse_validation_result` (lines 193-307): start from
a `FAIL` result, flip to `PASS` when the literal `Status: PASS` occurs in
the text, run the line loop, flush the last categorized issue, and —
only when there is no critical categorized issue — force
`valid=True, status=PASS`.  Note the final step has no `else`: with
critical issues present, whatever the `Status: PASS` check set earlier is
kept. -/
def parse_validation_result (validation_text : String) : ValidationResult :=
  let base : ValidationResult :=
    { valid := false, status := "FAIL", semantic_analysis := ""
    , logical_consistency := "", safety_compliance := ""
    , issues := [], recommendations := [], categorized_issues := [] }
  let base :=
    if pyIn "Status: PASS" validation_text then
      { base with valid := true, status := "PASS" }
    else base
  let lines := pySplitChar ('\n') validation_text
  let st0 : VParseState := { res := base, current_section := none, current_issue := none }
  let fin := lines.foldl parseValidationLine st0
  let allIssues := flushIssue fin.res.categorized_issues fin.current_issue
  let res : ValidationResult := { fin.res with categorized_issues := allIssues }
  let critical_count : Nat :=
    (res.categorized_issues.filter (fun i => i.severity = "critical")).length
  if critical_count = 0 then { res with valid := true, status := "PASS" } else res

/-- An LLM validation text with a literal `Status: PASS` line and one
`[CRITICAL]` categorized issue. -/
def c1FailingText : String :=
  "Status: PASS\n==============================\nCATEGORIZED ISSUES\n==============================\n[CRITICAL] Missing emergency stop interlock\nDescription: The stage has no emergency stop handling.\n"

/-! ## Code generation request

Embedding of `StructuredTextGenerator._build_generation_request`
(`backend/app/core/code_generation/structured_text_generator.py`,
lines 544-581). -/

/-- The stage dict built by the `/generate` route
(`code_generation.py`, lines 72-80).  `original_logic` is `Option` to
model Python `dict.get` key-presence (the route always sets it, from the
non-nullable `Stage.original_logic` column); `edited_logic` is the
nullable column. -/
structure StageDict where
  id : Nat
  stage_number : Nat
  stage_name : String
  stage_type : String
  description : String
  original_logic : Option String
  edited_logic : Option String
deriving DecidableEq

/-- The control-logic selection of line 558:
`stage.get('original_logic', stage.get('edited_logic', ''))` — the
original logic whenever its key is present, the edited logic only as the
missing-key default. -/
def requestLogic (stage : StageDict) : String :=
  match stage.original_logic with
  | some t => t
  | none => stage.edited_logic.getD ""

/-- Literal pieces of the f-string of `_build_generation_request`
(lines 549-560). -/
def reqA : String := "Generate Structured Text code for this stage:\n\nSTAGE INFORMATION:\n- Stage Number: "

def reqB : String := "\n- Stage Name: "

def reqC : String := "\n- Stage Type: "

def reqD : String := "\n- Description: "

def reqE : String := "\n\nCONTROL LOGIC:\n"

def reqF : String := "\n\n"

/-- Literal pieces of the optional project-context insert (line 563). -/
def reqCtxA : String := "\nPROJECT CONTEXT:\n"

def reqCtxB : String := "\n"

/-- Literal pieces of the instruction tail (lines 565-579). -/
def reqTail1 : String := "\nGenerate the complete code following the EXACT format specified in your instructions.\n\nCRITICAL: For ALL Program Blocks, Functions, and Function Blocks you generate:\n- Include \"Stage: "

def reqTail2 : String := " - "

def reqTail3 : String := "\" in the metadata section\n- This ensures proper identification and organization\n\nRemember:\n- Generate Program Blocks, Functions, and Function Blocks as needed based on the control logic\n- Use proper device ranges\n- All variables must be in label tables\n- No device symbols in code body\n- Industrial-grade logic\n- Safety-first approach\n"

/-- `_build_generation_request` (lines 544-581): the user message built
from stage number, name, type, description and the selected control
logic, the optional project context, and the fixed instruction tail. -/
def build_generation_request (stage : StageDict) (project_context : Option String) : String :=
  let part1 := reqA ++ toString stage.stage_number ++ reqB ++ stage.stage_name ++ reqC ++ stage.stage_type ++ reqD ++ stage.description ++ reqE ++ requestLogic stage ++ reqF
  let part2 :=
    match project_context with
    | some ctx => reqCtxA ++ ctx ++ reqCtxB
    | none => ""
  let part3 := reqTail1 ++ toString stage.stage_number ++ reqTail2 ++ stage.stage_name ++ reqTail3
  part1 ++ part2 ++ part3

/-- A stage with distinct edited and original logic. -/
def c6Stage : StageDict :=
  { id := 3, stage_number := 2, stage_name := "Conveyor Operation"
  , stage_type := "operation", description := "Runs the conveyor"
  , original_logic := some "ORIGINALLOGICABC"
  , edited_logic := some "EDITEDLOGICXYZ" }

/-! ## Input validation

Embedding of `backend/app/core/planner/planner_orchestrator.py`
(`_validate_input`, the gate of `create_plan`, i.e. of the spec's
`ingestLogic`) and of `backend/app/core/input_processing/input_validator.py`
(`InputValidator.validate`, used only by the file-input route). -/

/-- Result dict of `PlannerOrchestrator._validate_input`. -/
structure InputValidation where
  valid : Bool
  error : Option String
deriving DecidableEq

/-- `PlannerOrchestrator._validate_input` (`planner_orchestrator.py`,
lines 61-78): rejects empty or whitespace-only text and text below 50
words.  Note there is no upper word-count bound in this function. -/
def validate_input (control_logic : String) : InputValidation :=
  if control_logic = "" ∨ pyStrip control_logic = "" then
    { valid := false, error := some "Control logic cannot be empty" }
  else
    let word_count := (pySplitWs control_logic).length
    if word_count < 50 then
      { valid := false
      , error := some s!"Control logic too brief ({word_count} words). Please provide at least 50 words describing the complete control process." }
    else
      { valid := true, error := none }

/-- Result dict of `InputValidator.validate`. -/
structure ValidatorResult where
  valid : Bool
  error : Option String
  word_count : Option Nat
  required : Option Nat
  max_allowed : Option Nat
deriving DecidableEq

/-- `InputValidator.validate` (`input_validator.py`, lines 11-45), with
`min_word_count = 50` and `max_word_count = 5000`. -/
def input_validator_validate (text : String) : ValidatorResult :=
  if text = "" ∨ pyStrip text = "" then
    { valid := false, error := some "Control logic cannot be empty"
    , word_count := none, required := none, max_allowed := none }
  else
    let word_count := (pySplitWs text).length
    if word_count < 50 then
      { valid := false
      , error := some s!"Control logic too brief ({word_count} words). Please provide at least 50 words describing the complete control process."
      , word_count := some word_count, required := some 50, max_allowed := none }
    else if word_count > 5000 then
      { valid := false
      , error := some s!"Control logic too long ({word_count} words). Maximum 5000 words allowed."
      , word_count := some word_count, required := none, max_allowed := some 5000 }
    else
      { valid := true, error := none
      , word_count := some word_count, required := none, max_allowed := none }

/-- `n` copies of the word `w` joined by single blanks (as a char list). -/
def repeatedWord (w : List Char) : Nat → List Char
  | 0 => []
  | 1 => w
  | n + 2 => w ++ (' ') :: repeatedWord w (n + 1)

/-- A 5001-word input text. -/
def bigText5001 : String :=
  ⟨repeatedWord ("valve").data 5001⟩

/-! ## Code parser

Embedding of `StructuredTextGenerator._parse_generated_code`,
`_parse_program_block`, `_parse_function`, `_parse_function_block` and
`_parse_label_table` (`structured_text_generator.py`, lines 594-899).
The regex delimiters are modelled as case-insensitive literal scans:
the top-level `re.finditer` calls become `blockSlices` (all header
occurrences, content up to the next block header or end of input), and
the metadata `re.search(r'Tag:\s*(.+)')` calls become `searchLineValue`
(rest of the line after the first occurrence of the tag, stripped; `""`
both when the tag is missing and when its value is blank).  The claim —
only blocks with a non-empty parsed name reach the result — does not
depend on the exact slicing. -/

/-- Lower-case a char list (for the `re.IGNORECASE` matches). -/
def lowerChars (l : List Char) : List Char :=
  l.map Char.toLower

/-- Remainder after the first case-insensitive occurrence of `tag`. -/
def findTagRemainder (tag : List Char) : List Char → Option (List Char)
  | [] => none
  | c :: cs =>
    if prefixMatch (lowerChars tag) (lowerChars (c :: cs)) then
      some ((c :: cs).drop tag.length)
    else findTagRemainder tag cs

/-- `re.search(r'Tag\s*(.+)')` on a metadata tag: the rest of the first
matching line, stripped; `""` when the tag does not occur. -/
def searchLineValue (tag : String) (text : String) : String :=
  match findTagRemainder tag.data text.data with
  | none => ""
  | some rest => pyStrip ⟨rest.takeWhile (fun c => c ≠ '\n')⟩

/-- Does a top-level block header start here (the lookahead
`PROGRAM BLOCK|FUNCTION(?!\s+BLOCK)|FUNCTION BLOCK` — together every
`PROGRAM BLOCK` or `FUNCTION` occurrence)? -/
def isStopPrefix (l : List Char) : Bool :=
  prefixMatch ("program block").data (lowerChars l) ||
  prefixMatch ("function").data (lowerChars l)

/-- Capture up to the next top-level block header or end of input. -/
def takeUntilStop : List Char → List Char
  | [] => []
  | c :: cs => if isStopPrefix (c :: cs) then [] else c :: takeUntilStop cs

/-- Capture up to the first case-insensitive occurrence of `stop`. -/
def takeUntilCI (stop : List Char) : List Char → List Char
  | [] => []
  | c :: cs =>
    if prefixMatch (lowerChars stop) (lowerChars (c :: cs)) then []
    else c :: takeUntilCI stop cs

/-- All positions where `header` occurs (case-insensitively). -/
def headerPositions (header : List Char) (l : List Char) : List Nat :=
  (List.range (l.length + 1)).filter
    (fun i => prefixMatch (lowerChars header) (lowerChars (l.drop i)))

/-- The `re.finditer` block contents: for each `header` occurrence, the
text from just after the header up to the next block header or end. -/
def blockSlices (header : List Char) (l : List Char) : List String :=
  (headerPositions header l).map
    (fun p => ⟨takeUntilStop ((l.drop (p + header.length)))⟩)

/-- `\s*\n` after a code header: consume the whitespace run when it
contains a newline, returning the text after its last newline. -/
def afterWsNl : List Char → Option (List Char)
  | [] => none
  | c :: cs =>
    if c = '\n' then
      match afterWsNl cs with
      | some r => some r
      | none => some cs
    else if c.isWhitespace then afterWsNl cs
    else none

/-- The header keywords of the code cleanup (line 722). -/
def headerKws : List String :=
  ["label name", "data type", "class", "initial value", "constant", "english"]

/-- The cleanup loop over captured code lines (lines 707-731): drop table
header lines and standalone `STRUCTURED TEXT CODE` lines, collapsing the
blank line that follows a dropped header. -/
def cleanCodeLines (lines : List String) : List String :=
  (lines.foldl
    (fun (acc : List String × Bool) line =>
      let stripped := pyStrip line
      if stripped = "" then
        (if acc.2 = false then acc.1 ++ [line] else acc.1, false)
      else if pyIn "|" line ∧ headerKws.any (fun kw => pyIn kw (pyLower line)) then
        (acc.1, true)
      else if pyLower (pyStrip line) = "structured text code:" ∨
          pyLower (pyStrip line) = "structured text code" then
        (acc.1, true)
      else (acc.1 ++ [line], false))
    ([], false)).1

/-- `'\n'.join(...)`. -/
def joinNl : List String → String
  | [] => ""
  | [s] => s
  | s :: rest => s ++ "\n" ++ joinNl rest

/-- The code capture of lines 697-733: find `STRUCTURED TEXT CODE:` (or
the `STRUCTURED TEXT` fallback) followed by `\s*\n`, take the rest, strip
it, run the cleanup loop, and strip again; `""` when no capture. -/
def extractCode (text : List Char) : String :=
  let cap :=
    match findTagRemainder ("structured text code:").data text with
    | some rest => afterWsNl rest
    | none => none
  let cap :=
    match cap with
    | some r => some r
    | none =>
      match findTagRemainder ("structured text").data text with
      | some rest => afterWsNl rest
      | none => none
  match cap with
  | none => ""
  | some capture =>
    let code_text := pyStrip ⟨capture⟩
    pyStrip (joinNl (cleanCodeLines (pySplitChar ('\n') code_text)))

/-- One row of `_parse_label_table` (lines 879-896): split on `|`, strip,
drop empties, require at least 3 cells and a non-header first cell, and
keep only rows whose name is none of `"", "-", "N/A"`. -/
def parseLabelRow (line : String) : Option Label :=
  if pyIn "|" line then
    let parts := ((pySplitChar ('|') line).map pyStrip).filter (fun p => p ≠ "")
    if parts.length ≥ 3 ∧
        ¬ (["label name", "name", "column", "label"].any
          (fun kw => pyIn kw (pyLower (parts.headD "")))) then
      let name := parts.getD 0 ""
      let label : Label :=
        { name := name
        , data_type := parts.getD 1 ""
        , labelClass := parts.getD 2 ""
        , device := parts.getD 3 ""
        , initial_value := parts.getD 4 ""
        , constant :=
            if parts.length > 5 then
              pyLower (parts.getD 5 "") ∈ ["yes", "true", "1"]
            else false
        , comment :=
            if parts.length > 6 then parts.getD 6 ""
            else if parts.length > 5 ∧
                pyLower (parts.getD 5 "") ∉ ["yes", "no", "true", "false"] then
              parts.getD 5 ""
            else "" }
      if name ≠ "" ∧ name ≠ "-" ∧ name ≠ "N/A" then some label else none
    else none
  else none

/-- `_parse_label_table` (lines 868-899): keep lines that are non-blank
and do not start with `=` or `-`, strip them, and parse each row. -/
def parse_label_table (table_text : String) : List Label :=
  let lines := ((pySplitChar ('\n') table_text).filter
    (fun l => pyStrip l ≠ "" ∧ ¬ pyStartsWith l "=" ∧ ¬ pyStartsWith l "-")).map pyStrip
  lines.filterMap parseLabelRow

/-- The `LOCAL LABEL TABLE[:\s]*(.*?)(?=STRUCTURED TEXT|$)` capture. -/
def localLabelSection (text : List Char) : Option String :=
  match findTagRemainder ("local label table").data text with
  | none => none
  | some rest =>
    some ⟨takeUntilCI ("structured text").data
      (rest.dropWhile (fun c => c = ':' ∨ c.isWhitespace))⟩

/-- A parsed program block (`_parse_program_block`). -/
structure PBlock where
  stage : String
  name : String
  execution_type : String
  local_labels : List Label
  code : String
deriving DecidableEq

/-- A parsed function (`_parse_function`). -/
structure PFunc where
  stage : String
  name : String
  with_en : Bool
  result_type : String
  local_labels : List Label
  code : String
deriving DecidableEq

/-- A parsed function block (`_parse_function_block`). -/
structure PFuncBlock where
  stage : String
  name : String
  fb_type : String
  with_en : Bool
  local_labels : List Label
  code : String
deriving DecidableEq

/-- `_parse_program_block` (lines 668-740): metadata, local labels, code;
`None` (here `none`) unless the parsed `Program Name` is non-empty. -/
def parse_program_block (block_text : String) : Option PBlock :=
  let stage := searchLineValue ("stage:") block_text
  let name := searchLineValue ("program name:") block_text
  let et := searchLineValue ("execution type:") block_text
  let execution_type := if et = "" then "Scan" else et
  let local_labels :=
    match localLabelSection block_text.data with
    | some sec => parse_label_table sec
    | none => []
  let code := extractCode block_text.data
  if name ≠ "" then
    some { stage := stage, name := name, execution_type := execution_type
         , local_labels := local_labels, code := code }
  else none

/-- `_parse_function` (lines 742-803). -/
def parse_function (func_text : String) : Option PFunc :=
  let stage := searchLineValue ("stage:") func_text
  let name := searchLineValue ("function name:") func_text
  let en := searchLineValue ("with en or without en:") func_text
  let with_en := pyIn "with en" (pyLower en)
  let rt := searchLineValue ("result type:") func_text
  let result_type := if rt = "" then "BOOL" else rt
  let local_labels :=
    match localLabelSection func_text.data with
    | some sec => parse_label_table sec
    | none => []
  let code := extractCode func_text.data
  if name ≠ "" then
    some { stage := stage, name := name, with_en := with_en
         , result_type := result_type, local_labels := local_labels
         , code := code }
  else none

/-- `_parse_function_block` (lines 805-866). -/
def parse_function_block (fb_text : String) : Option PFuncBlock :=
  let stage := searchLineValue ("stage:") fb_text
  let name := searchLineValue ("function block name:") fb_text
  let ft := searchLineValue ("function block type:") fb_text
  let fb_type := if ft = "" then "Subroutine Type" else ft
  let en := searchLineValue ("with en or without en:") fb_text
  let with_en := pyIn "with en" (pyLower en)
  let local_labels :=
    match localLabelSection fb_text.data with
    | some sec => parse_label_table sec
    | none => []
  let code := extractCode fb_text.data
  if name ≠ "" then
    some { stage := stage, name := name, fb_type := fb_type
         , with_en := with_en, local_labels := local_labels, code := code }
  else none

/-- The result record of `_parse_generated_code` (lines 600-607). -/
structure ParsedCode where
  global_labels : List Label
  program_blocks : List PBlock
  functions : List PFunc
  function_blocks : List PFuncBlock
  local_labels : List Label
  program_body : String
deriving DecidableEq

/-- `_parse_generated_code` (lines 594-666): global table, then all
program blocks / functions / function blocks (each sub-parser result
appended only when not `None` — a `filterMap`), then the legacy
`local_labels` / `program_body` mirror of the first program block. -/
def parse_generated_code (code_text : String) : ParsedCode :=
  let global_labels :=
    match findTagRemainder ("global label table").data code_text.data with
    | some rest => parse_label_table ⟨takeUntilStop rest⟩
    | none => []
  let program_blocks :=
    (blockSlices ("program block").data code_text.data).filterMap parse_program_block
  let functions :=
    (blockSlices ("function").data code_text.data).filterMap parse_function
  let function_blocks :=
    (blockSlices ("function block").data code_text.data).filterMap parse_function_block
  let local_labels :=
    match program_blocks with
    | pb :: _ => pb.local_labels
    | [] => []
  let program_body :=
    match program_blocks with
    | pb :: _ => pb.code
    | [] => ""
  { global_labels := global_labels, program_blocks := program_blocks
  , functions := functions, function_blocks := function_blocks
  , local_labels := local_labels, program_body := program_body }

/-- A program block text with no `Program Name:` line. -/
def c10NoNameBlock : String :=
  "Stage: 1 - Idle\nExecution Type: Scan\nSTRUCTURED TEXT CODE:\nMotor := TRUE;"

/-! ## Generate-all-stages route

Embedding of `generate_code` (`backend/app/api/routes/code_generation.py`,
lines 19-160) over an explicit database state (the project's
`GeneratedCode` rows), with the LLM generator abstracted as a function
`gen : StageRow → GenResult`. -/

/-- The slice of a `Stage` row the `/generate` route reads. -/
structure StageRow where
  id : Nat
  project_id : Nat
  stage_number : Nat
  stage_name : String
  is_validated : Bool
deriving DecidableEq

/-- A `GeneratedCode` row with the fields the claims concern
(`generated_code.py`; `stage_id` is nullable). -/
structure CodeRow where
  project_id : Nat
  stage_id : Option Nat
  global_labels : List Label
  local_labels : List Label
  program_body : String
deriving DecidableEq

/-- The result dict of `StructuredTextGenerator.generate_code` as the
route consumes it.  `success := false` also stands for an exception
raised by the generator: both abort the route's loop before any database
write. -/
structure GenResult where
  success : Bool
  global_labels : List Label
  local_labels : List Label
  program_body : String
deriving DecidableEq

/-- `CodeRepository.delete_by_stage` (`code_repository.py`,
lines 56-61). -/
def delete_by_stage (stage_id : Nat) (db : List CodeRow) : List CodeRow :=
  db.filter (fun r => r.stage_id ≠ some stage_id)

/-- The generation loop of the route (lines 70-90): generate per stage in
order, collecting `(stage, result)` pairs; an unsuccessful result raises,
aborting the operation before any database write. -/
def collectResults (stages : List StageRow) (gen : StageRow → GenResult) :
    Except String (List (StageRow × GenResult)) :=
  match stages with
  | [] => .ok []
  | s :: rest =>
    let r := gen s
    if r.success then
      match collectResults rest gen with
      | .ok rs => .ok ((s, r) :: rs)
      | .error e => .error e
    else .error ("Failed to generate code for stage: " ++ s.stage_name)

/-- The row created by `code_repo.create` in the write loop
(lines 101-113), with the unified `merged` global labels. -/
def mkCodeRow (merged : List Label) (pr : StageRow × GenResult) : CodeRow :=
  { project_id := pr.1.project_id, stage_id := some pr.1.id
  , global_labels := merged, local_labels := pr.2.local_labels
  , program_body := pr.2.program_body }

/-- The write loop of the route (lines 96-113): per generated stage,
delete the prior code row and create the new one with the unified global
labels. -/
def writeStages (merged : List Label) :
    List (StageRow × GenResult) → List CodeRow → List CodeRow
  | [], db => db
  | pr :: rest, db =>
    writeStages merged rest (delete_by_stage pr.1.id db ++ [mkCodeRow merged pr])

/-- The unified labels of line 93:
`merge_global_labels([], all_global_labels)`. -/
def routeMerged (results : List (StageRow × GenResult)) : List Label :=
  merge_global_labels [] ((results.map (fun pr => pr.2.global_labels)).flatten)

/-- `generate_code` (`code_generation.py`, lines 19-160): the
all-stages-validated precondition, the generation loop, the merge, the
write loop, and the selection of the requested stage's result (in the
source the missing-result branch raises after the writes; the boolean
models the success of the whole operation). -/
def generate_code_route (db : List CodeRow) (stage : StageRow)
    (all_stages : List StageRow) (gen : StageRow → GenResult) :
    List CodeRow × Bool :=
  if (all_stages.filter (fun s => !s.is_validated)) ≠ [] then (db, false)
  else
    match collectResults all_stages gen with
    | .error _ => (db, false)
    | .ok results =>
      match results.find? (fun pr => pr.1.id == stage.id) with
      | some _ => (writeStages (routeMerged results) results db, true)
      | none => (writeStages (routeMerged results) results db, false)

/-- A stage whose generation fails. -/
def c2Stage : StageRow :=
  { id := 11, project_id := 4, stage_number := 0, stage_name := "Idle"
  , is_validated := true }

/-- A pre-existing code row of the same project. -/
def c2Row : CodeRow :=
  { project_id := 4, stage_id := some 11, global_labels := []
  , local_labels := [], program_body := "Old := 1;" }

/-- A generator that fails on every stage. -/
def c2Gen : StageRow → GenResult :=
  fun _ => { success := false, global_labels := [], local_labels := []
           , program_body := "" }

/-- A validated stage for the success witness. -/
def c3Stage : StageRow :=
  { id := 21, project_id := 6, stage_number := 0, stage_name := "Idle"
  , is_validated := true }

/-- A global label emitted by the witness generator. -/
def c3Label : Label :=
  { name := "Motor_Run", data_type := "Bit", labelClass := "VAR_GLOBAL"
  , device := "M10", initial_value := "", constant := false, comment := "" }

/-- A generator that succeeds with one global label. -/
def c3Gen : StageRow → GenResult :=
  fun _ => { success := true, global_labels := [c3Label], local_labels := []
           , program_body := "Motor_Run := TRUE;" }

/-- The code row the witness run creates for `c3Stage`. -/
def c3Row : CodeRow :=
  { project_id := 6, stage_id := some 21, global_labels := [c3Label]
  , local_labels := [], program_body := "Motor_Run := TRUE;" }

/-! ## Dependency validator

Embedding of `DependencyMapper.validate_dependencies`
(`backend/app/core/planner/dependency_mapper.py`, lines 7-47). -/

/-- The slice of a stage dict the dependency validator reads. -/
structure StageInfo where
  stage_number : Nat
  stage_name : String
  stage_type : String
deriving DecidableEq

/-- A stage dependency dict `{from_stage, to_stage, condition}`. -/
structure Dep where
  from_stage : Nat
  to_stage : Nat
  condition : String
deriving DecidableEq

/-- The result dict of `validate_dependencies`. -/
structure DepValidation where
  valid : Bool
  errors : List String
  warnings : List String
deriving DecidableEq

/-- Error message of lines 25 and 28. -/
def missingMsg (n : Nat) : String := s!"Dependency references non-existent stage: {n}"

/-- Warning message of line 31. -/
def backwardsMsg (f t : Nat) : String := s!"Backwards dependency: Stage {f} → {t}"

/-- Warning message of line 41. -/
def unreachableMsg (n : Nat) : String := s!"Stage {n} may be unreachable"

/-- One iteration of the `for dep in dependencies` loop (lines 20-31):
append an error per missing endpoint, then a warning when
`from_stage >= to_stage`. -/
def depStep (stage_numbers : List Nat) (acc : List String × List String)
    (dep : Dep) : List String × List String :=
  let acc1 :=
    if dep.from_stage ∉ stage_numbers then (acc.1 ++ [missingMsg dep.from_stage], acc.2)
    else acc
  let acc2 :=
    if dep.to_stage ∉ stage_numbers then (acc1.1 ++ [missingMsg dep.to_stage], acc1.2)
    else acc1
  if dep.from_stage ≥ dep.to_stage then
    (acc2.1, acc2.2 ++ [backwardsMsg dep.from_stage dep.to_stage])
  else acc2

/-- The single left-to-right reachability pass (lines 34-37): starting
from `{0}`, add `to_stage` whenever `from_stage` is already in the set.
This is NOT a closure: it depends on the list order. -/
def reachablePass (dependencies : List Dep) : List Nat :=
  dependencies.foldl
    (fun r dep => if dep.from_stage ∈ r then r ++ [dep.to_stage] else r) [0]

/-- `DependencyMapper.validate_dependencies` (lines 7-47). -/
def validate_dependencies (stages : List StageInfo) (dependencies : List Dep) :
    DepValidation :=
  let stage_numbers := stages.map StageInfo.stage_number
  let ew := dependencies.foldl (depStep stage_numbers) ([], [])
  let reachable := reachablePass dependencies
  let warnings := stage_numbers.foldl
    (fun w n => if n ∉ reachable ∧ n ≠ 0 then w ++ [unreachableMsg n] else w) ew.2
  { valid := ew.1.length = 0, errors := ew.1, warnings := warnings }

/-- The errors one dependency contributes (lines 24-28). -/
def errsOfDep (stage_numbers : List Nat) (d : Dep) : List String :=
  (if d.from_stage ∉ stage_numbers then [missingMsg d.from_stage] else []) ++
  (if d.to_stage ∉ stage_numbers then [missingMsg d.to_stage] else [])

/-- An edge of the stage transition graph (spec side, §4.7). -/
def depEdge (deps : List Dep) (a b : Nat) : Prop :=
  ∃ d ∈ deps, d.from_stage = a ∧ d.to_stage = b

/-- Modelled from the spec (§4.7, property vocabulary): true graph
reachability along transition edges, for comparison with the code's
single-pass set. -/
def reachableInGraph (deps : List Dep) (a b : Nat) : Prop :=
  Relation.ReflTransGen (depEdge deps) a b

/-- The three stages of the counterexample plan. -/
def c9Stages : List StageInfo :=
  [ { stage_number := 0, stage_name := "Idle", stage_type := "idle" }
  , { stage_number := 1, stage_name := "Safety Check", stage_type := "safety" }
  , { stage_number := 2, stage_name := "Conveyor Operation", stage_type := "operation" } ]

/-- Dependencies listed out of order: `1→2` before `0→1`. -/
def c9Deps : List Dep :=
  [ { from_stage := 1, to_stage := 2, condition := "" }
  , { from_stage := 0, to_stage := 1, condition := "" } ]

/-! ## Theorems and lemmas -/

lemma mergeStep_devices_mono (st : MergeState) (l : Label) {x : String}
    (hx : x ∈ st.existing_devices) : x ∈ (mergeStep st l).existing_devices := by
  unfold mergeStep
  split
  · simp only
    split
    · exact List.mem_cons_of_mem _ hx
    · exact hx
  · exact hx

lemma mergeStep_names_mono (st : MergeState) (l : Label) {x : String}
    (hx : x ∈ st.existing_names) : x ∈ (mergeStep st l).existing_names := by
  unfold mergeStep
  split
  · simp only
    split
    · exact List.mem_cons_of_mem _ hx
    · exact hx
  · exact hx

lemma foldl_devices_mono (B : List Label) (st : MergeState) {x : String}
    (hx : x ∈ st.existing_devices) :
    x ∈ (B.foldl mergeStep st).existing_devices := by
  induction B generalizing st with
  | nil => exact hx
  | cons b rest ih => exact ih _ (mergeStep_devices_mono st b hx)

lemma foldl_names_mono (B : List Label) (st : MergeState) {x : String}
    (hx : x ∈ st.existing_names) :
    x ∈ (B.foldl mergeStep st).existing_names := by
  induction B generalizing st with
  | nil => exact hx
  | cons b rest ih => exact ih _ (mergeStep_names_mono st b hx)

/-- A label rejected (or just admitted) at some state stays rejected at
every later state of the same run: the sets only grow. -/
lemma not_admits_mono {st st' : MergeState} {l : Label}
    (hdev : ∀ x ∈ st.existing_devices, x ∈ st'.existing_devices)
    (hnam : ∀ x ∈ st.existing_names, x ∈ st'.existing_names)
    (h : ¬ admits st l) : ¬ admits st' l := by
  unfold admits at h ⊢
  push_neg at h ⊢
  intro h1 h2
  exact hnam _ (h h1 (fun hc => h2 (hdev _ hc)))

/-- After `mergeStep` processes a label, that label can never be admitted
again. -/
lemma mergeStep_blocks (st : MergeState) (l : Label) :
    ¬ admits (mergeStep st l) l := by
  by_cases h : admits st l
  · have h1 : labelIdentifier l ≠ "" := h.1
    unfold mergeStep
    rw [if_pos h]
    by_cases hd : l.device ≠ ""
    · exact fun hadm => hadm.2.1 (by simp [labelIdentifier, hd])
    · have hn : l.name ≠ "" := by
        unfold labelIdentifier at h1
        simpa [hd] using h1
      exact fun hadm => hadm.2.2 (by simp [hn])
  · unfold mergeStep
    rw [if_neg h]
    exact h

/-- Every label of the processed list is rejected by the final state. -/
lemma foldl_blocks (B : List Label) (st : MergeState) :
    ∀ b ∈ B, ¬ admits (B.foldl mergeStep st) b := by
  induction B generalizing st with
  | nil => intro b hb; cases hb
  | cons c rest ih =>
    intro b hb
    rcases List.mem_cons.mp hb with rfl | hb
    · simp only [List.foldl_cons]
      exact not_admits_mono
        (fun x hx => foldl_devices_mono rest _ hx)
        (fun x hx => foldl_names_mono rest _ hx)
        (mergeStep_blocks st b)
    · simpa using ih (mergeStep st c) b hb

/-- A fold over labels that are all rejected at the start leaves the state
unchanged. -/
lemma foldl_of_all_blocked (B : List Label) (st : MergeState)
    (h : ∀ b ∈ B, ¬ admits st b) : B.foldl mergeStep st = st := by
  induction B with
  | nil => rfl
  | cons c rest ih =>
    have hc : mergeStep st c = st := by
      unfold mergeStep; rw [if_neg (h c (by simp))]
    simp only [List.foldl_cons, hc]
    exact ih (fun b hb => h b (by simp [hb]))

lemma mergeInv_init (L : List Label) : mergeInv (mergeInit L) :=
  ⟨fun _ => Iff.rfl, fun _ => Iff.rfl⟩

lemma devicesOf_append (L M : List Label) :
    devicesOf (L ++ M) = devicesOf L ++ devicesOf M := by
  simp [devicesOf]

lemma namesOf_append (L M : List Label) :
    namesOf (L ++ M) = namesOf L ++ namesOf M := by
  simp [namesOf]

lemma devicesOf_singleton (l : Label) :
    devicesOf [l] = if l.device ≠ "" then [l.device] else [] := by
  by_cases h : l.device ≠ "" <;> simp [devicesOf, h]

lemma namesOf_singleton (l : Label) :
    namesOf [l] = if l.name ≠ "" then [l.name] else [] := by
  by_cases h : l.name ≠ "" <;> simp [namesOf, h]

lemma mergeInv_step (st : MergeState) (l : Label) (h : mergeInv st) :
    mergeInv (mergeStep st l) := by
  unfold mergeStep
  split
  · obtain ⟨hd, hn⟩ := h
    unfold mergeInv
    refine ⟨fun x => ?_, fun x => ?_⟩
    · simp only [devicesOf_append, devicesOf_singleton, List.mem_append]
      by_cases hdev : l.device ≠ ""
      · simp only [if_pos hdev, List.mem_cons, hd x, List.mem_singleton]
        tauto
      · simp only [if_neg hdev, hd x, List.not_mem_nil]
        tauto
    · simp only [namesOf_append, namesOf_singleton, List.mem_append]
      by_cases hnam : l.name ≠ ""
      · simp only [if_pos hnam, List.mem_cons, hn x, List.mem_singleton]
        tauto
      · simp only [if_neg hnam, hn x, List.not_mem_nil]
        tauto
  · exact h

lemma mergeInv_foldl (B : List Label) (st : MergeState) (h : mergeInv st) :
    mergeInv (B.foldl mergeStep st) := by
  induction B generalizing st with
  | nil => exact h
  | cons c rest ih => exact ih _ (mergeInv_step st c h)

/-- Under the invariant, re-initializing from the merged list rejects the
same labels as the final state. -/
lemma admits_mergeInit_iff (st : MergeState) (h : mergeInv st) (l : Label) :
    admits (mergeInit st.merged) l ↔ admits st l := by
  obtain ⟨hd, hn⟩ := h
  unfold admits mergeInit
  constructor
  · rintro ⟨h1, h2, h3⟩
    exact ⟨h1, fun hc => h2 ((hd _).mp hc), fun hc => h3 ((hn _).mp hc)⟩
  · rintro ⟨h1, h2, h3⟩
    exact ⟨h1, fun hc => h2 ((hd _).mpr hc), fun hc => h3 ((hn _).mpr hc)⟩

/-- Idempotence of the merge: re-merging the same new labels adds
nothing. -/
lemma merge_idem (A B : List Label) :
    merge_global_labels (merge_global_labels A B) B = merge_global_labels A B := by
  unfold merge_global_labels
  set st := B.foldl mergeStep (mergeInit A) with hst
  have hinv : mergeInv st := mergeInv_foldl B _ (mergeInv_init A)
  have hblocked : ∀ b ∈ B, ¬ admits (mergeInit st.merged) b := by
    intro b hb hadm
    exact foldl_blocks B (mergeInit A) b hb ((admits_mergeInit_iff st hinv b).mp hadm)
  rw [foldl_of_all_blocked B _ hblocked]
  rfl

lemma labelIdentifier_mem_keys (l : Label) (h : labelIdentifier l ≠ "") :
    labelIdentifier l ∈ labelKeys l := by
  by_cases hd : l.device ≠ ""
  · unfold labelIdentifier labelKeys
    simp [hd]
  · have hn : l.name ≠ "" := by
      unfold labelIdentifier at h
      simpa [hd] using h
    unfold labelIdentifier labelKeys
    simp [hd, hn]

lemma device_mem_keys (l : Label) (h : l.device ≠ "") : l.device ∈ labelKeys l := by
  unfold labelKeys; simp [h]

lemma name_mem_keys (l : Label) (h : l.name ≠ "") : l.name ∈ labelKeys l := by
  unfold labelKeys
  by_cases hd : l.device ≠ "" <;> simp [hd, h]

lemma keysDisjoint_symm {a b : Label} (h : keysDisjoint a b) : keysDisjoint b a := by
  intro k hk hka
  exact h k hka hk

/-- The fold admits the whole of `B` when every label of `B` has a
non-empty identity, the labels of `B` are pairwise key-disjoint, and no
key of `B` is already in the state sets (with `""` not in the name
set). -/
lemma foldl_all_admitted (B : List Label) (st : MergeState)
    (hids : ∀ b ∈ B, labelIdentifier b ≠ "")
    (hpw : B.Pairwise keysDisjoint)
    (hfresh : ∀ b ∈ B, labelIdentifier b ∉ st.existing_devices ∧
      b.name ∉ st.existing_names)
    (hnil : "" ∉ st.existing_names) :
    (B.foldl mergeStep st).merged = st.merged ++ B := by
  induction B generalizing st with
  | nil => simp
  | cons c rest ih =>
    have hadm : admits st c :=
      ⟨hids c (by simp), (hfresh c (by simp)).1, (hfresh c (by simp)).2⟩
    have hstep : mergeStep st c =
        { merged := st.merged ++ [c]
        , existing_devices :=
            if c.device ≠ "" then c.device :: st.existing_devices
            else st.existing_devices
        , existing_names :=
            if c.name ≠ "" then c.name :: st.existing_names
            else st.existing_names } := by
      unfold mergeStep; rw [if_pos hadm]
    have hdisj : ∀ b ∈ rest, keysDisjoint c b := (List.pairwise_cons.mp hpw).1
    have hrest : ∀ b ∈ rest, labelIdentifier b ∉ (mergeStep st c).existing_devices ∧
        b.name ∉ (mergeStep st c).existing_names := by
      intro b hb
      have hbid : labelIdentifier b ≠ "" := hids b (by simp [hb])
      have hkb : labelIdentifier b ∈ labelKeys b := labelIdentifier_mem_keys b hbid
      constructor
      · rw [hstep]
        by_cases hcd : c.device ≠ ""
        · simp only [if_pos hcd, List.mem_cons]
          rintro (heq | hmem)
          · exact hdisj b hb c.device (device_mem_keys c hcd) (heq ▸ hkb)
          · exact (hfresh b (by simp [hb])).1 hmem
        · simp only [if_neg hcd]
          exact (hfresh b (by simp [hb])).1
      · rw [hstep]
        by_cases hcn : c.name ≠ ""
        · simp only [if_pos hcn, List.mem_cons]
          rintro (heq | hmem)
          · by_cases hbn : b.name ≠ ""
            · exact hdisj b hb c.name (name_mem_keys c hcn) (heq ▸ name_mem_keys b hbn)
            · simp at hbn; exact hcn (heq ▸ hbn)
          · exact (hfresh b (by simp [hb])).2 hmem
        · simp only [if_neg hcn]
          exact (hfresh b (by simp [hb])).2
    have hnil' : "" ∉ (mergeStep st c).existing_names := by
      rw [hstep]
      by_cases hcn : c.name ≠ ""
      · simp only [if_pos hcn, List.mem_cons]
        rintro (heq | hmem)
        · exact hcn heq.symm
        · exact hnil hmem
      · simp only [if_neg hcn]; exact hnil
    have := ih (mergeStep st c)
      (fun b hb => hids b (by simp [hb]))
      (List.pairwise_cons.mp hpw).2 hrest hnil'
    simp only [List.foldl_cons]
    rw [this, hstep]
    simp

lemma mem_devicesOf {L : List Label} {x : String} (h : x ∈ devicesOf L) :
    ∃ a ∈ L, a.device = x ∧ a.device ≠ "" := by
  unfold devicesOf at h
  obtain ⟨a, ha, rfl⟩ := List.mem_map.mp h
  obtain ⟨haL, hane⟩ := List.mem_filter.mp ha
  exact ⟨a, haL, rfl, by simpa using hane⟩

lemma mem_namesOf {L : List Label} {x : String} (h : x ∈ namesOf L) :
    ∃ a ∈ L, a.name = x ∧ a.name ≠ "" := by
  unfold namesOf at h
  obtain ⟨a, ha, rfl⟩ := List.mem_map.mp h
  obtain ⟨haL, hane⟩ := List.mem_filter.mp ha
  exact ⟨a, haL, rfl, by simpa using hane⟩

/-- Under full key-disjointness the merge is plain concatenation. -/
lemma merge_of_disjoint (A B : List Label)
    (_hA : goodList A) (hB : goodList B) (hAB : crossDisjoint A B) :
    merge_global_labels A B = A ++ B := by
  unfold merge_global_labels
  have hfresh : ∀ b ∈ B, labelIdentifier b ∉ (mergeInit A).existing_devices ∧
      b.name ∉ (mergeInit A).existing_names := by
    intro b hb
    have hbid : labelIdentifier b ≠ "" := hB.1 b hb
    have hkb : labelIdentifier b ∈ labelKeys b := labelIdentifier_mem_keys b hbid
    constructor
    · intro hmem
      obtain ⟨a, haA, heq, hane⟩ := mem_devicesOf hmem
      exact hAB a haA b hb a.device (device_mem_keys a hane) (heq ▸ hkb)
    · intro hmem
      obtain ⟨a, haA, heq, hane⟩ := mem_namesOf hmem
      by_cases hbn : b.name ≠ ""
      · exact hAB a haA b hb a.name (name_mem_keys a hane) (heq ▸ name_mem_keys b hbn)
      · simp at hbn; exact hane (hbn ▸ heq)
  have hnil : "" ∉ (mergeInit A).existing_names := by
    intro hmem
    obtain ⟨a, _, heq, hane⟩ := mem_namesOf hmem
    exact hane heq
  exact foldl_all_admitted B (mergeInit A) hB.1 hB.2 hfresh hnil

/-- C7 (counterexample): `[c7LabelA]` and `[c7LabelB]` share no
device-collision (their non-empty devices differ), yet
`merge(A,B) = [A,B]` and `merge(B,A) = [B,A]` are different lists, so the
claimed commutativity `merge(A,B) == merge(B,A)` fails. -/
theorem c7_counterexample :
    c7LabelA.device ≠ "" ∧ c7LabelB.device ≠ "" ∧
    c7LabelA.device ≠ c7LabelB.device ∧
    c7LabelA.name ≠ c7LabelB.name ∧
    merge_global_labels [c7LabelA] [c7LabelB] ≠
      merge_global_labels [c7LabelB] [c7LabelA] := by
  decide

/-- C7 (amended): the merge is idempotent —
`merge(merge(A,B),B) == merge(A,B)` for all label lists — and, when `A`
and `B` each keep all their labels (non-empty identities, pairwise
key-disjoint) and share no non-empty device or name across the lists,
`merge(A,B) = A ++ B`, which is a permutation of `merge(B,A) = B ++ A`:
the two sides hold the same labels and differ only in first-seen order
(so list equality fails in general, as the counterexample shows). -/
theorem c7_amended (A B : List Label) :
    merge_global_labels (merge_global_labels A B) B = merge_global_labels A B ∧
    (goodList A → goodList B → crossDisjoint A B →
      merge_global_labels A B = A ++ B ∧
      (merge_global_labels A B).Perm (merge_global_labels B A)) := by
  refine ⟨merge_idem A B, fun hA hB hAB => ?_⟩
  have hBA : crossDisjoint B A := fun b hb a ha => keysDisjoint_symm (hAB a ha b hb)
  have h1 : merge_global_labels A B = A ++ B := merge_of_disjoint A B hA hB hAB
  have h2 : merge_global_labels B A = B ++ A := merge_of_disjoint B A hB hA hBA
  exact ⟨h1, h1 ▸ h2 ▸ List.perm_append_comm⟩

/-- C7 (witness): the amended theorem applied to the concrete disjoint
singleton lists. -/
theorem c7_amended_witness :
    merge_global_labels [c7LabelA] [c7LabelB] = [c7LabelA] ++ [c7LabelB] ∧
    (merge_global_labels [c7LabelA] [c7LabelB]).Perm
      (merge_global_labels [c7LabelB] [c7LabelA]) :=
  (c7_amended [c7LabelA] [c7LabelB]).2 (by decide) (by decide) (by decide)

/-- C1 (code evaluation at the failing input): on a text containing
`Status: PASS` together with a `[CRITICAL]` categorized issue, the parser
returns `valid=true` and `status="PASS"` even though the parsed result
holds a critical issue — the final critical-count gate of
`parse_validation_result` only sets `PASS` when the count is zero and
never forces `FAIL` when it is not, so the early `Status: PASS` check
wins, contradicting the critical-issue gate the claim (and the
function's own comment) state. -/
theorem c1_code_evaluation :
    ((parse_validation_result c1FailingText).categorized_issues.filter
      (fun i => i.severity = "critical")).length = 1 ∧
    (parse_validation_result c1FailingText).valid = true ∧
    (parse_validation_result c1FailingText).status = "PASS" := by
  decide

lemma prefixMatch_refl (l : List Char) : prefixMatch l l = true := by
  induction l with
  | nil => rfl
  | cons c cs ih => simp [prefixMatch, ih]

lemma prefixMatch_append (n l b : List Char) (h : prefixMatch n l = true) :
    prefixMatch n (l ++ b) = true := by
  induction n generalizing l with
  | nil => rfl
  | cons c cs ih =>
    cases l with
    | nil => simp [prefixMatch] at h
    | cons d ds =>
      simp [prefixMatch] at h ⊢
      exact ⟨h.1, ih ds h.2⟩

lemma containsSub_append_left (n a b : List Char)
    (h : containsSub n b = true) : containsSub n (a ++ b) = true := by
  induction a with
  | nil => simpa using h
  | cons c cs ih => simp [containsSub, ih]

lemma containsSub_append_right (n a b : List Char)
    (h : containsSub n a = true) : containsSub n (a ++ b) = true := by
  induction a with
  | nil =>
    cases n with
    | nil =>
      cases b with
      | nil => rfl
      | cons d ds => simp [containsSub, prefixMatch]
    | cons c cs => simp [containsSub, prefixMatch] at h
  | cons c cs ih =>
    simp only [containsSub, Bool.or_eq_true] at h
    rcases h with h | h
    · simp only [List.cons_append, containsSub, Bool.or_eq_true]
      exact Or.inl (prefixMatch_append _ _ _ h)
    · simp only [List.cons_append, containsSub, Bool.or_eq_true]
      exact Or.inr (ih h)

lemma containsSub_refl (l : List Char) : containsSub l l = true := by
  cases l with
  | nil => rfl
  | cons c cs => simp [containsSub, prefixMatch_refl]

lemma pyIn_append_left (n a b : String) (h : pyIn n b = true) :
    pyIn n (a ++ b) = true := by
  unfold pyIn at h ⊢
  rw [String.data_append]
  exact containsSub_append_left _ _ _ h

lemma pyIn_append_right (n a b : String) (h : pyIn n a = true) :
    pyIn n (a ++ b) = true := by
  unfold pyIn at h ⊢
  rw [String.data_append]
  exact containsSub_append_right _ _ _ h

lemma pyIn_refl (s : String) : pyIn s s = true :=
  containsSub_refl s.data

set_option maxRecDepth 16384 in
/-- C6 (counterexample): for a stage holding both an edited and an
original logic, the composed user message does not contain the edited
logic at all — line 558 reads
`stage.get('original_logic', stage.get('edited_logic', ''))`, so the
original logic is embedded whenever its key is present (the route always
sets it), contradicting the claimed `edited_logic ?? original_logic`. -/
theorem c6_counterexample :
    c6Stage.edited_logic = some "EDITEDLOGICXYZ" ∧
    pyIn "EDITEDLOGICXYZ" (build_generation_request c6Stage none) = false ∧
    pyIn "ORIGINALLOGICABC" (build_generation_request c6Stage none) = true := by
  decide

/-- C6 (amended): the user message embeds the stage's original logic
(`original_logic ?? edited_logic`): whenever the `original_logic` key is
present, its text occurs in the message, and the message is entirely
independent of `edited_logic`. -/
theorem c6_amended (stage : StageDict) (pc : Option String) (t : String)
    (h : stage.original_logic = some t) :
    pyIn t (build_generation_request stage pc) = true ∧
    (∀ e, build_generation_request { stage with edited_logic := e } pc =
      build_generation_request stage pc) := by
  constructor
  · unfold build_generation_request
    apply pyIn_append_right
    apply pyIn_append_right
    apply pyIn_append_right
    apply pyIn_append_left
    unfold requestLogic
    rw [h]
    exact pyIn_refl t
  · intro e
    simp only [build_generation_request, requestLogic, h]

/-- C6 (witness): the amended theorem at the concrete stage. -/
theorem c6_amended_witness :
    pyIn "ORIGINALLOGICABC" (build_generation_request c6Stage none) = true ∧
    build_generation_request { c6Stage with edited_logic := none } none =
      build_generation_request c6Stage none :=
  ⟨(c6_amended c6Stage none "ORIGINALLOGICABC" rfl).1,
   (c6_amended c6Stage none "ORIGINALLOGICABC" rfl).2 none⟩

lemma splitWsAux_through_word (w : List Char) (hw : ∀ c ∈ w, ¬c.isWhitespace) :
    ∀ rest acc, splitWsAux (w ++ rest) acc = splitWsAux rest (w.reverse ++ acc) := by
  induction w with
  | nil => intro rest acc; simp
  | cons c cs ih =>
    intro rest acc
    have hc : ¬c.isWhitespace := hw c (by simp)
    have step : splitWsAux ((c :: cs) ++ rest) acc = splitWsAux (cs ++ rest) (c :: acc) := by
      simp [splitWsAux, hc]
    rw [step, ih (fun d hd => hw d (by simp [hd])) rest (c :: acc)]
    simp

lemma repeatedWord_count (w : List Char) (hne : w ≠ [])
    (hw : ∀ c ∈ w, ¬c.isWhitespace) :
    ∀ n, (splitWsAux (repeatedWord w n) []).length = n := by
  intro n
  induction n using Nat.strong_induction_on with
  | _ n ih =>
    match n with
    | 0 => simp [repeatedWord, splitWsAux]
    | 1 =>
      have h1 : repeatedWord w 1 = w ++ [] := by simp [repeatedWord]
      rw [h1, splitWsAux_through_word w hw [] []]
      simp [splitWsAux, List.isEmpty_iff, hne]
    | n + 2 =>
      have h2 : repeatedWord w (n + 2) = w ++ (' ') :: repeatedWord w (n + 1) := rfl
      rw [h2, splitWsAux_through_word w hw _ []]
      have hacc : ((w.reverse ++ ([] : List Char)).isEmpty) = false := by
        simp [List.isEmpty_iff, hne]
      simp only [splitWsAux, hacc]
      have hsp : ((' ').isWhitespace) = true := by decide
      rw [hsp]
      simp only [if_pos, Bool.false_eq_true, if_neg, List.length_cons,
        ite_true, ite_false]
      rw [ih (n + 1) (by omega)]

lemma stripChars_ne_nil {l : List Char} {c : Char} (hc : c ∈ l)
    (hw : ¬c.isWhitespace) : stripChars l ≠ [] := by
  unfold stripChars
  intro h
  rw [List.reverse_eq_nil_iff, List.dropWhile_eq_nil_iff] at h
  have hmem : c ∈ l.dropWhile Char.isWhitespace := by
    have hsplit := List.takeWhile_append_dropWhile (p := Char.isWhitespace) (l := l)
    rcases List.mem_append.mp (by rw [hsplit]; exact hc) with htk | hdp
    · exact absurd (List.mem_takeWhile_imp htk) hw
    · exact hdp
  exact hw (h c (List.mem_reverse.mpr hmem))

lemma repeatedWord_mem_head (w : List Char) (c : Char) (hc : c ∈ w) :
    ∀ n, n ≠ 0 → c ∈ repeatedWord w n := by
  intro n hn
  match n with
  | 0 => exact absurd rfl hn
  | 1 => exact hc
  | n + 2 => exact List.mem_append_left _ hc

/-- C8 (counterexample): a 5001-word input passes the plan-creation input
check: `create_plan` validates with `_validate_input`, which has no
5000-word maximum, so the claimed rejection of word counts above 5000
does not happen in the plan-creation operation. -/
theorem c8_counterexample :
    (pySplitWs bigText5001).length = 5001 ∧
    (validate_input bigText5001).valid = true := by
  have hv : ('v') ∈ ("valve").data := by decide
  have hw : ∀ c ∈ ("valve").data, ¬c.isWhitespace := by decide
  have hne : ("valve").data ≠ [] := by decide
  have hcount : (pySplitWs bigText5001).length = 5001 :=
    repeatedWord_count _ hne hw 5001
  refine ⟨hcount, ?_⟩
  have hmem : ('v') ∈ bigText5001.data :=
    repeatedWord_mem_head _ _ hv 5001 (by omega)
  have hnwc : ¬(('v').isWhitespace) := by decide
  have hemp : ¬(bigText5001 = "" ∨ pyStrip bigText5001 = "") := by
    rintro (h | h)
    · rw [h] at hmem
      exact absurd hmem (by decide)
    · have h2 : stripChars bigText5001.data = [] := by
        have h3 := congrArg String.data h
        simpa [pyStrip] using h3
      exact stripChars_ne_nil hmem hnwc h2
  unfold validate_input
  rw [if_neg hemp]
  simp only
  rw [if_neg (by rw [hcount]; omega)]

/-- C8 (amended): the plan-creation input step accepts exactly non-empty,
non-whitespace-only text of at least 50 words — it enforces no upper
bound; the 5000-word maximum lives only in the standalone
`InputValidator.validate` (the file-input route), which accepts exactly
word counts in `[50, 5000]`. -/
theorem c8_amended (text : String) :
    ((validate_input text).valid = true ↔
      ¬(text = "" ∨ pyStrip text = "") ∧ 50 ≤ (pySplitWs text).length) ∧
    ((input_validator_validate text).valid = true ↔
      ¬(text = "" ∨ pyStrip text = "") ∧ 50 ≤ (pySplitWs text).length ∧
        (pySplitWs text).length ≤ 5000) := by
  constructor
  · unfold validate_input
    by_cases h1 : (text = "" ∨ pyStrip text = "")
    · simp [h1]
    · rw [if_neg h1]
      by_cases h2 : (pySplitWs text).length < 50
      · simp only [h2, if_pos]
        simp [h1]
        omega
      · simp only [h2, Bool.false_eq_true, if_neg, ite_false]
        simp [h1]
        omega
  · unfold input_validator_validate
    by_cases h1 : (text = "" ∨ pyStrip text = "")
    · simp [h1]
    · rw [if_neg h1]
      by_cases h2 : (pySplitWs text).length < 50
      · simp only [h2, if_pos]
        simp [h1]
        omega
      · simp only [h2, Bool.false_eq_true, if_neg, ite_false]
        by_cases h3 : (pySplitWs text).length > 5000
        · simp only [h3, if_pos]
          simp [h1]
          omega
        · simp only [h3, Bool.false_eq_true, if_neg, ite_false]
          simp [h1]
          omega

lemma parse_program_block_name {t : String} {b : PBlock}
    (h : parse_program_block t = some b) : b.name ≠ "" := by
  unfold parse_program_block at h
  by_cases hn : searchLineValue ("program name:") t ≠ ""
  · simp only [if_pos hn] at h
    cases h
    exact hn
  · simp only [if_neg hn] at h
    cases h

lemma parse_function_name {t : String} {f : PFunc}
    (h : parse_function t = some f) : f.name ≠ "" := by
  unfold parse_function at h
  by_cases hn : searchLineValue ("function name:") t ≠ ""
  · simp only [if_pos hn] at h
    cases h
    exact hn
  · simp only [if_neg hn] at h
    cases h

lemma parse_function_block_name {t : String} {fb : PFuncBlock}
    (h : parse_function_block t = some fb) : fb.name ≠ "" := by
  unfold parse_function_block at h
  by_cases hn : searchLineValue ("function block name:") t ≠ ""
  · simp only [if_pos hn] at h
    cases h
    exact hn
  · simp only [if_neg hn] at h
    cases h

/-- C10: every program block, function, and function block in any parsed
result has a non-empty name, and a block text whose metadata lacks the
corresponding name line (so the extracted name is empty) parses to
`none` — silently omitted by the collectors rather than returned or
reported as an error. -/
theorem c10_only_named_blocks :
    (∀ text : String,
      (∀ b ∈ (parse_generated_code text).program_blocks, b.name ≠ "") ∧
      (∀ f ∈ (parse_generated_code text).functions, f.name ≠ "") ∧
      (∀ fb ∈ (parse_generated_code text).function_blocks, fb.name ≠ "")) ∧
    (∀ t : String, searchLineValue ("program name:") t = "" →
      parse_program_block t = none) ∧
    (∀ t : String, searchLineValue ("function name:") t = "" →
      parse_function t = none) ∧
    (∀ t : String, searchLineValue ("function block name:") t = "" →
      parse_function_block t = none) := by
  refine ⟨fun text => ⟨?_, ?_, ?_⟩, ?_, ?_, ?_⟩
  · intro b hb
    simp only [parse_generated_code] at hb
    obtain ⟨a, _, ha⟩ := List.mem_filterMap.mp hb
    exact parse_program_block_name ha
  · intro f hf
    simp only [parse_generated_code] at hf
    obtain ⟨a, _, ha⟩ := List.mem_filterMap.mp hf
    exact parse_function_name ha
  · intro fb hfb
    simp only [parse_generated_code] at hfb
    obtain ⟨a, _, ha⟩ := List.mem_filterMap.mp hfb
    exact parse_function_block_name ha
  · intro t ht
    unfold parse_program_block
    simp [ht]
  · intro t ht
    unfold parse_function
    simp [ht]
  · intro t ht
    unfold parse_function_block
    simp [ht]

/-- C10 (witness): a block without a name line parses to `none`. -/
theorem c10_only_named_blocks_witness :
    parse_program_block c10NoNameBlock = none :=
  c10_only_named_blocks.2.1 c10NoNameBlock (by decide)

lemma collectResults_error (stages : List StageRow) (gen : StageRow → GenResult)
    (h : ∃ s ∈ stages, (gen s).success = false) :
    ∃ e, collectResults stages gen = Except.error e := by
  induction stages with
  | nil => obtain ⟨s, hs, _⟩ := h; cases hs
  | cons s rest ih =>
    by_cases hs : (gen s).success
    · obtain ⟨t, ht, htf⟩ := h
      rcases List.mem_cons.mp ht with rfl | ht'
      · rw [hs] at htf; cases htf
      · obtain ⟨e, he⟩ := ih ⟨t, ht', htf⟩
        refine ⟨e, ?_⟩
        unfold collectResults
        rw [if_pos hs, he]
    · refine ⟨"Failed to generate code for stage: " ++ s.stage_name, ?_⟩
      unfold collectResults
      rw [if_neg hs]

lemma collectResults_ok_eq (stages : List StageRow) (gen : StageRow → GenResult) :
    ∀ results, collectResults stages gen = .ok results →
      results = stages.map (fun s => (s, gen s)) := by
  induction stages with
  | nil =>
    intro results h
    simp only [collectResults] at h
    cases h
    rfl
  | cons s rest ih =>
    intro results h
    unfold collectResults at h
    by_cases hs : (gen s).success
    · rw [if_pos hs] at h
      cases hrec : collectResults rest gen with
      | ok rs =>
        rw [hrec] at h
        cases h
        simp [ih rs hrec]
      | error e => rw [hrec] at h; cases h
    · rw [if_neg hs] at h; cases h

lemma writeStages_origin (merged : List Label) :
    ∀ (results : List (StageRow × GenResult)) (d : List CodeRow) (r : CodeRow),
      r ∈ writeStages merged results d →
      r ∈ d ∨ ∃ pr ∈ results, r = mkCodeRow merged pr := by
  intro results
  induction results with
  | nil => intro d r hr; exact Or.inl hr
  | cons pr0 rest ih =>
    intro d r hr
    rcases ih _ r hr with hd | ⟨pr, hpr, rfl⟩
    · rcases List.mem_append.mp hd with hdel | hnew
      · exact Or.inl (List.mem_of_mem_filter hdel)
      · exact Or.inr ⟨pr0, by simp, (List.mem_singleton.mp hnew)⟩
    · exact Or.inr ⟨pr, by simp [hpr], rfl⟩

lemma writeStages_target (merged : List Label) :
    ∀ (results : List (StageRow × GenResult)) (d : List CodeRow) (r : CodeRow)
      (pr : StageRow × GenResult), pr ∈ results →
      r ∈ writeStages merged results d → r.stage_id = some pr.1.id →
      (results.map (fun q => q.1.id)).Nodup → r = mkCodeRow merged pr := by
  intro results
  induction results with
  | nil => intro d r pr hpr; cases hpr
  | cons pr0 rest ih =>
    intro d r pr hpr hr hsid hnd
    rw [List.map_cons] at hnd
    have hnd0 : pr0.1.id ∉ rest.map (fun q => q.1.id) ∧
        (rest.map (fun q => q.1.id)).Nodup := List.nodup_cons.mp hnd
    rcases List.mem_cons.mp hpr with rfl | hpr'
    · have horigin := writeStages_origin merged rest
        (delete_by_stage pr.1.id d ++ [mkCodeRow merged pr]) r hr
      rcases horigin with hd | ⟨pr', hpr', rfl⟩
      · rcases List.mem_append.mp hd with hdel | hnew
        · exfalso
          have hmf := List.mem_filter.mp hdel
          have : r.stage_id ≠ some pr.1.id := by simpa using hmf.2
          exact this hsid
        · exact List.mem_singleton.mp hnew
      · exfalso
        have heq : pr'.1.id = pr.1.id := by
          simpa [mkCodeRow] using hsid
        exact hnd0.1 (heq ▸ List.mem_map_of_mem (fun q => q.1.id) hpr')
    · exact ih _ r pr hpr' hr hsid hnd0.2

/-- C2 (confirmed): if any stage's generation fails (an unsuccessful
generator result, standing also for a generator exception) during the
generate-all-stages operation, the whole database of GeneratedCode rows
is returned unchanged and the operation reports failure: the route
performs no delete/create/update before the generation loop has
succeeded for every stage. -/
theorem c2_all_or_nothing (db : List CodeRow) (stage : StageRow)
    (all_stages : List StageRow) (gen : StageRow → GenResult)
    (h : ∃ s ∈ all_stages, (gen s).success = false) :
    (generate_code_route db stage all_stages gen).1 = db ∧
    (generate_code_route db stage all_stages gen).2 = false := by
  unfold generate_code_route
  by_cases hval : (all_stages.filter (fun s => !s.is_validated)) ≠ []
  · rw [if_pos hval]
    exact ⟨rfl, rfl⟩
  · rw [if_neg hval]
    obtain ⟨e, he⟩ := collectResults_error all_stages gen h
    rw [he]
    exact ⟨rfl, rfl⟩

/-- C2 (witness): the all-or-nothing theorem at a concrete failing run. -/
theorem c2_all_or_nothing_witness :
    (generate_code_route [c2Row] c2Stage [c2Stage] c2Gen).1 = [c2Row] ∧
    (generate_code_route [c2Row] c2Stage [c2Stage] c2Gen).2 = false :=
  c2_all_or_nothing [c2Row] c2Stage [c2Stage] c2Gen
    ⟨c2Stage, by decide, rfl⟩

/-- C3 (confirmed): after a successful generate-all-stages run, every
code row of a stage of the project holds the same global label list —
the merge of the union of all stages' emitted global labels — so for all
stages A and B, `code(A).globalLabels == code(B).globalLabels`.  The
stage ids are pairwise distinct (`Nodup`), as database primary keys
are. -/
theorem c3_global_unification (db : List CodeRow) (stage : StageRow)
    (all_stages : List StageRow) (gen : StageRow → GenResult)
    (hids : (all_stages.map StageRow.id).Nodup)
    (hsucc : (generate_code_route db stage all_stages gen).2 = true) :
    (∀ s1 ∈ all_stages, ∀ r1 ∈ (generate_code_route db stage all_stages gen).1,
      r1.stage_id = some s1.id →
      r1.global_labels =
        merge_global_labels []
          ((all_stages.map (fun s => (gen s).global_labels)).flatten)) ∧
    (∀ s1 ∈ all_stages, ∀ s2 ∈ all_stages,
      ∀ r1 ∈ (generate_code_route db stage all_stages gen).1,
      ∀ r2 ∈ (generate_code_route db stage all_stages gen).1,
        r1.stage_id = some s1.id → r2.stage_id = some s2.id →
        r1.global_labels = r2.global_labels) := by
  have hcore : ∀ s1 ∈ all_stages,
      ∀ r1 ∈ (generate_code_route db stage all_stages gen).1,
      r1.stage_id = some s1.id →
      r1.global_labels =
        merge_global_labels []
          ((all_stages.map (fun s => (gen s).global_labels)).flatten) := by
    intro s1 hs1 r1 hr1 hsid
    unfold generate_code_route at hsucc hr1
    by_cases hval : (all_stages.filter (fun s => !s.is_validated)) ≠ []
    · rw [if_pos hval] at hsucc; cases hsucc
    · rw [if_neg hval] at hsucc hr1
      cases hcol : collectResults all_stages gen with
      | error e => rw [hcol] at hsucc; cases hsucc
      | ok results =>
        simp only [hcol] at hsucc hr1
        have hres : results = all_stages.map (fun s => (s, gen s)) :=
          collectResults_ok_eq all_stages gen results hcol
        cases hfind : results.find? (fun pr => pr.1.id == stage.id) with
        | none => simp only [hfind] at hsucc; cases hsucc
        | some pr0 =>
          simp only [hfind] at hr1
          have hprmem : (s1, gen s1) ∈ results := by
            rw [hres]
            exact List.mem_map_of_mem _ hs1
          have hndres : (results.map (fun q => q.1.id)).Nodup := by
            rw [hres]
            simpa [List.map_map, Function.comp] using hids
          have := writeStages_target (routeMerged results) results db r1
            (s1, gen s1) hprmem hr1 hsid hndres
          rw [this]
          have hmerge : routeMerged results =
              merge_global_labels []
                ((all_stages.map (fun s => (gen s).global_labels)).flatten) := by
            unfold routeMerged
            rw [hres]
            simp only [List.map_map]
            rfl
          simpa [mkCodeRow] using hmerge
  refine ⟨hcore, fun s1 hs1 s2 hs2 r1 hr1 r2 hr2 e1 e2 => ?_⟩
  rw [hcore s1 hs1 r1 hr1 e1, hcore s2 hs2 r2 hr2 e2]

/-- C3 (witness): the unification theorem at a concrete successful run. -/
theorem c3_global_unification_witness :
    (generate_code_route [] c3Stage [c3Stage] c3Gen).2 = true ∧
    c3Row ∈ (generate_code_route [] c3Stage [c3Stage] c3Gen).1 ∧
    c3Row.global_labels =
      merge_global_labels []
        (([c3Stage].map (fun s => (c3Gen s).global_labels)).flatten) :=
  ⟨by decide, by decide,
    (c3_global_unification [] c3Stage [c3Stage] c3Gen (by decide)
      (by decide)).1 c3Stage (by decide) c3Row (by decide) (by decide)⟩

lemma depStep_spec (nums : List Nat) (acc : List String × List String) (d : Dep) :
    depStep nums acc d =
      (acc.1 ++ errsOfDep nums d,
       acc.2 ++ (if d.from_stage ≥ d.to_stage then [backwardsMsg d.from_stage d.to_stage] else [])) := by
  unfold depStep errsOfDep
  by_cases h1 : d.from_stage ∉ nums <;>
    by_cases h2 : d.to_stage ∉ nums <;>
      by_cases h3 : d.from_stage ≥ d.to_stage <;>
        simp [h1, h2, h3]

lemma errsOfDep_eq_nil (nums : List Nat) (d : Dep) :
    errsOfDep nums d = [] ↔ d.from_stage ∈ nums ∧ d.to_stage ∈ nums := by
  unfold errsOfDep
  by_cases h1 : d.from_stage ∈ nums <;> by_cases h2 : d.to_stage ∈ nums <;>
    simp [h1, h2]

lemma depFold_spec (nums : List Nat) (deps : List Dep) :
    ∀ e0 w0, deps.foldl (depStep nums) (e0, w0) =
      (e0 ++ (deps.map (errsOfDep nums)).flatten,
       w0 ++ (deps.filter (fun d => decide (d.from_stage ≥ d.to_stage))).map
         (fun d => backwardsMsg d.from_stage d.to_stage)) := by
  induction deps with
  | nil => intro e0 w0; simp
  | cons d rest ih =>
    intro e0 w0
    simp only [List.foldl_cons, depStep_spec]
    rw [ih]
    by_cases h : d.from_stage ≥ d.to_stage <;>
      simp [h, List.append_assoc]

lemma unreachFold_spec (reachable : List Nat) (l : List Nat) :
    ∀ w0, l.foldl
        (fun w n => if n ∉ reachable ∧ n ≠ 0 then w ++ [unreachableMsg n] else w) w0 =
      w0 ++ (l.filter (fun n => decide (n ∉ reachable ∧ n ≠ 0))).map unreachableMsg := by
  induction l with
  | nil => intro w0; simp
  | cons n rest ih =>
    intro w0
    simp only [List.foldl_cons]
    by_cases h : n ∉ reachable ∧ n ≠ 0
    · rw [if_pos h, ih]
      simp [h]
    · rw [if_neg h, ih]
      simp [h]

/-- C9 (counterexample): with dependencies listed as `1→2, 0→1`, stage 2
is reachable from stage 0 in the transition graph, yet the validator
records `Stage 2 may be unreachable` — its reachability computation is a
single in-order pass over the dependency list, not a closure, so the
claimed "exactly the stages not reachable from 0" fails. -/
theorem c9_counterexample :
    unreachableMsg 2 ∈ (validate_dependencies c9Stages c9Deps).warnings ∧
    reachableInGraph c9Deps 0 2 := by
  constructor
  · decide
  · have e01 : depEdge c9Deps 0 1 :=
      ⟨{ from_stage := 0, to_stage := 1, condition := "" }, by decide, rfl, rfl⟩
    have e12 : depEdge c9Deps 1 2 :=
      ⟨{ from_stage := 1, to_stage := 2, condition := "" }, by decide, rfl, rfl⟩
    exact Relation.ReflTransGen.tail (Relation.ReflTransGen.tail Relation.ReflTransGen.refl e01) e12

/-- C9 (amended): the validator returns `valid=true` iff every dependency
endpoint is an existing stage number, and its warning list is exactly the
backwards warnings (one per dependency with `fromStage >= toStage`, in
order) followed by one `unreachable` warning for each stage other than 0
that is not in the single in-order reachability pass `reachablePass` —
an under-approximation of graph reachability that can flag reachable
stages when the dependency list is out of order (see the
counterexample). -/
theorem c9_amended (stages : List StageInfo) (dependencies : List Dep) :
    ((validate_dependencies stages dependencies).valid = true ↔
      ∀ dep ∈ dependencies,
        dep.from_stage ∈ stages.map StageInfo.stage_number ∧
        dep.to_stage ∈ stages.map StageInfo.stage_number) ∧
    (validate_dependencies stages dependencies).warnings =
      (dependencies.filter (fun d => decide (d.from_stage ≥ d.to_stage))).map
        (fun d => backwardsMsg d.from_stage d.to_stage) ++
      ((stages.map StageInfo.stage_number).filter
        (fun n => decide (n ∉ reachablePass dependencies ∧ n ≠ 0))).map unreachableMsg := by
  unfold validate_dependencies
  simp only []
  rw [depFold_spec, unreachFold_spec]
  refine ⟨?_, by simp⟩
  simp only [List.nil_append, decide_eq_true_eq, List.length_eq_zero,
    List.flatten_eq_nil_iff]
  constructor
  · intro h dep hdep
    exact (errsOfDep_eq_nil _ _).mp (h _ (List.mem_map_of_mem _ hdep))
  · intro h l hl
    obtain ⟨dep, hdep, rfl⟩ := List.mem_map.mp hl
    exact (errsOfDep_eq_nil _ _).mpr (h dep hdep)

/-- C4 (counterexample): the claim says action `edit_code` increments the
patch number, but `increment_version` lists only `edit_logic` and
`safety_check` in its patch branch, so `edit_code` falls through both
branches and the version is returned unchanged: `1.0.0`, not `1.0.1`. -/
theorem c4_counterexample :
    increment_version "1.0.0" "edit_code" = "1.0.0" ∧
    increment_version "1.0.0" "edit_code" ≠ "1.0.1" := by
  decide

/-- C4 (amended): for every version string parsing as `major.minor.patch`,
`validate`/`generate_code` yield `major.(minor+1).0` and
`edit_logic`/`safety_check` yield `major.minor.(patch+1)`, while
`edit_code` leaves the version number unchanged. -/
theorem c4_amended (current : String) (M m p : Int)
    (h : pyParseVersion current = some (M, m, p)) :
    increment_version current "validate" = s!"{M}.{m + 1}.{(0 : Int)}" ∧
    increment_version current "generate_code" = s!"{M}.{m + 1}.{(0 : Int)}" ∧
    increment_version current "edit_logic" = s!"{M}.{m}.{p + 1}" ∧
    increment_version current "safety_check" = s!"{M}.{m}.{p + 1}" ∧
    increment_version current "edit_code" = s!"{M}.{m}.{p}" := by
  refine ⟨?_, ?_, ?_, ?_, ?_⟩ <;> simp [increment_version, h]

/-- C4 (witness): the amended bump table evaluated at the initial version
`1.0.0`. -/
theorem c4_amended_witness :
    increment_version "1.0.0" "validate" = "1.1.0" ∧
    increment_version "1.0.0" "edit_code" = "1.0.0" :=
  ⟨((c4_amended "1.0.0" 1 0 0 (by decide)).1).trans (by decide),
   ((c4_amended "1.0.0" 1 0 0 (by decide)).2.2.2.2).trans (by decide)⟩

/-- C5 (counterexample): starting from semver `1.0.0`, the action sequence
`edit_logic, validate, edit_logic, generate_code` does not end at `1.2.1`:
the final `generate_code` bump zeroes the patch, giving `1.2.0`. -/
theorem c5_counterexample :
    (runActions s5Stage [] s5Actions).1.version_number ≠ "1.2.1" := by
  decide

/-- C5 (amended): the S5 sequence ends at version `1.2.0` (not `1.2.1`),
and the ledger holds exactly 4 entries, in order, with matching action
labels; the per-entry versions are `1.0.1, 1.1.0, 1.1.1, 1.2.0`. -/
theorem c5_amended :
    (runActions s5Stage [] s5Actions).1.version_number = "1.2.0" ∧
    (runActions s5Stage [] s5Actions).2.length = 4 ∧
    (runActions s5Stage [] s5Actions).2.map LedgerEntry.action =
      ["edit_logic", "validate", "edit_logic", "generate_code"] ∧
    (runActions s5Stage [] s5Actions).2.map LedgerEntry.version_number =
      ["1.0.1", "1.1.0", "1.1.1", "1.2.0"] := by
  decide

end NexusAI
